import Mathlib

/-!
# Verification of the neurix intent-classifier training pipeline

Shallow embedding of the model-selection and decision-policy core of
`ml_model/scripts/train_intent_classifier.py` and
`ml_model/scripts/evaluate_combined.py`, together with proofs about the
early-stopping policy, the per-fold best-checkpoint tracking, the
cross-validation winner selection, the confidence-threshold decision rule
and the pooled multi-dataset accuracy.

Conventions of the embedding:
* Accuracies, confidences and thresholds are rationals (`ℚ`): every accuracy
  the scripts compute is a ratio of two natural numbers.
* Scalar training losses may be non-finite at runtime; they are embedded as
  `FVal` (a rational or the absorbing non-finite value).
* A model snapshot is represented by the observation the pipeline makes of
  it: for a fold-local snapshot, its validation accuracy on the fold's
  validation set (the score computed at the moment the snapshot is taken);
  for the cross-fold winner, the index of the fold that produced it.
* Training itself (gradient updates, tokenization, the network) is the
  external collaborator: the embedding takes the per-epoch batch losses and
  validation accuracies as inputs, exactly the values the control flow of
  the scripts branches on.
-/

namespace Neurix

/-- Label vocabulary, from `Config.LABEL2ID` in `train_intent_classifier.py`
(also duplicated in `evaluate_combined.py`). -/
def label2id : String → Option Nat
  | "save" => some 0
  | "search" => some 1
  | "reminder" => some 2
  | "cancel_all" => some 3
  | "cancel_specific" => some 4
  | "unclear" => some 5
  | _ => none

/-- The integer id of the distinguished label `"unclear"`:
`config.LABEL2ID["unclear"] = 5`. -/
def unclearId : Nat := 5

/-- A scalar loss value as produced by `loss.item()`: either a finite number
(embedded as a rational) or a non-finite value (NaN or an infinity), which
absorbs under arithmetic exactly as IEEE NaN propagates through `+` and `/`. -/
inductive FVal where
  | finite (q : ℚ)
  | nonfinite
deriving DecidableEq

/-- Addition of scalar losses: `total_loss += loss.item()`.  A non-finite
operand makes the result non-finite. -/
def FVal.add : FVal → FVal → FVal
  | .finite a, .finite b => .finite (a + b)
  | _, _ => .nonfinite

/-- Division of an accumulated loss by a batch count:
`avg_loss = total_loss / len(dataloader)`. -/
def FVal.divNat : FVal → Nat → FVal
  | .finite a, n => .finite (a / (n : ℚ))
  | .nonfinite, _ => .nonfinite

/-- `train_epoch` (lines 265-309 of `train_intent_classifier.py`), restricted
to the value its caller `train_fold` records: the average loss
`total_loss / len(dataloader)` accumulated over the batch losses returned by
the criterion.  The gradient updates happen inside the external classifier
and do not feed back into any control flow of the trainer.  No finiteness
check is performed anywhere in the source function. -/
def train_epoch (batch_losses : List FVal) : FVal :=
  (batch_losses.foldl FVal.add (FVal.finite 0)).divNat batch_losses.length

/-- The `EarlyStopping` object of `train_intent_classifier.py` (lines
231-257).  `best_model_state` holds the snapshot
`{k: v.cpu().clone() for k, v in model.state_dict().items()}`; the embedding
represents that snapshot by its validation accuracy on the fold's validation
set, which is exactly the score passed to `__call__` at the moment the
snapshot is taken (the two fields are assigned together in the source). -/
structure EarlyStopping where
  patience : Nat
  min_delta : ℚ
  counter : Nat
  best_score : Option ℚ
  early_stop : Bool
  best_model_state : Option ℚ
deriving DecidableEq

/-- `EarlyStopping.__init__` (lines 234-240): `counter = 0`,
`best_score = None`, `early_stop = False`, `best_model_state = None`. -/
def EarlyStopping.init (patience : Nat) (min_delta : ℚ) : EarlyStopping :=
  ⟨patience, min_delta, 0, none, false, none⟩

/-- `EarlyStopping.__call__` (lines 242-257): if `best_score` is `None`, set
it (and the snapshot) to the incoming score; else if
`score < best_score + min_delta`, increment `counter` and set `early_stop`
once `counter >= patience`; else record the new best score and snapshot and
reset `counter` to 0. -/
def EarlyStopping.call (es : EarlyStopping) (val_accuracy : ℚ) : EarlyStopping :=
  match es.best_score with
  | none =>
      { es with best_score := some val_accuracy, best_model_state := some val_accuracy }
  | some best =>
      if val_accuracy < best + es.min_delta then
        { es with
            counter := es.counter + 1,
            early_stop := if es.patience ≤ es.counter + 1 then true else es.early_stop }
      else
        { es with
            best_score := some val_accuracy,
            best_model_state := some val_accuracy,
            counter := 0 }

/-- What one epoch of `train_fold` observes from the external classifier: the
batch losses produced by the criterion during `train_epoch` and the
validation accuracy returned by `evaluate` (an `accuracy_score`, hence a
finite rational). -/
structure EpochData where
  batch_losses : List FVal
  val_accuracy : ℚ
deriving DecidableEq

/-- The epoch loop of `train_fold` (lines 400-433): per epoch it computes the
average training loss, appends to the history, feeds the validation accuracy
to the early-stopping object and breaks out of the loop as soon as
`early_stopping(val_acc, model)` returns `True`.  Returns the final
early-stopping state and the recorded history of
`(avg train loss, validation accuracy)` pairs; the number of epochs actually
run is the length of that history. -/
def foldEpochs : EarlyStopping → List EpochData → EarlyStopping × List (FVal × ℚ)
  | es, [] => (es, [])
  | es, e :: rest =>
      let es2 := es.call e.val_accuracy
      if es2.early_stop then
        (es2, [(train_epoch e.batch_losses, e.val_accuracy)])
      else
        ((foldEpochs es2 rest).1,
          (train_epoch e.batch_losses, e.val_accuracy) :: (foldEpochs es2 rest).2)

/-- What `train_fold` returns (line 438): the model restored from
`early_stopping.best_model_state`, the training history, and
`early_stopping.best_score`. -/
structure FoldOutcome where
  history : List (FVal × ℚ)
  best_score : Option ℚ
  best_model_state : Option ℚ
deriving DecidableEq

/-- Number of epochs actually run in the fold: `len(history["train_loss"])`. -/
def FoldOutcome.epochs_trained (o : FoldOutcome) : Nat :=
  o.history.length

/-- `train_fold` (lines 354-438): runs the epoch loop from a fresh
`EarlyStopping(patience, min_delta)` state over the given per-epoch data (the
list plays the role of the `range(config.MAX_EPOCHS)` budget: one entry per
epoch the external classifier would produce). -/
def train_fold (patience : Nat) (min_delta : ℚ) (epochs : List EpochData) : FoldOutcome :=
  ⟨(foldEpochs (EarlyStopping.init patience min_delta) epochs).2,
    (foldEpochs (EarlyStopping.init patience min_delta) epochs).1.best_score,
    (foldEpochs (EarlyStopping.init patience min_delta) epochs).1.best_model_state⟩

/-- One record of `fold_results` (lines 496-500): `{"fold": fold + 1,
"best_val_accuracy": best_acc, "epochs_trained": len(history["train_loss"])}`. -/
structure FoldResult where
  fold : Nat
  best_val_accuracy : ℚ
  epochs_trained : Nat
deriving DecidableEq

/-- The best-fold tracking state of `run_cross_validation`:
`best_fold`, `best_fold_acc`, `best_model_state` (lines 456-458);
the winning snapshot is represented by the index of the fold it came from. -/
structure Selection where
  best_fold : Int
  best_fold_acc : ℚ
  best_model_state : Option Nat
deriving DecidableEq

/-- The per-fold update `if best_acc > best_fold_acc: ...` (lines 503-507),
iterated over the folds in order. -/
def selectBestAux : List ℚ → Nat → Int → ℚ → Option Nat → Selection
  | [], _, bf, ba, bs => ⟨bf, ba, bs⟩
  | a :: rest, fold, bf, ba, bs =>
      if ba < a then selectBestAux rest (fold + 1) (fold : Int) a (some fold)
      else selectBestAux rest (fold + 1) bf ba bs

/-- The winner-selection logic of `run_cross_validation`: starting from
`best_fold = -1`, `best_fold_acc = 0`, `best_model_state = None`, fold over
the per-fold best accuracies with the strict-improvement update. -/
def select_best_fold (accs : List ℚ) : Selection :=
  selectBestAux accs 0 (-1) 0 none

/-- Modelled from the spec: the selection rule in its own words — "the model
whose `FoldResult.best_validation_accuracy` is strictly greatest is the
overall winner; ties broken by lowest `fold_id`".  Returns the first index
whose accuracy is greater than or equal to every accuracy in the list. -/
def spec_select_fold (accs : List ℚ) : Option Nat :=
  accs.findIdx? (fun x => decide (∀ y ∈ accs, y ≤ x))

/-- The accuracy `run_cross_validation` reads out of a completed fold: the
`best_acc` value returned by `train_fold` (which is
`early_stopping.best_score`; it is `None` only if the fold ran zero epochs,
impossible under the script's `MAX_EPOCHS = 15`, so the default is never
consulted on the runs the script performs). -/
def foldBestAcc (o : FoldOutcome) : ℚ :=
  o.best_score.getD 0

/-- What `run_cross_validation` returns (line 524): the fold results, the
winning fold index, its accuracy, and the winning model state. -/
structure CVResult where
  fold_results : List FoldResult
  best_fold : Int
  best_fold_acc : ℚ
  best_model_state : Option Nat
deriving DecidableEq

/-- `run_cross_validation` (lines 441-524).  The corpus labels are used by
the source only as an argument to the external `StratifiedKFold.split`; the
orchestrator itself performs no validation of per-label example counts (no
`InsufficientDataError` exists anywhere in the repository) and has no error
path: it unconditionally trains each fold, records a `FoldResult`, and runs
the winner-selection update.  The per-fold epoch data stand for what the
external classifier produces on the split that the external splitter chose
for that fold. -/
def run_cross_validation (labels : List Nat) (patience : Nat) (min_delta : ℚ)
    (fold_epochs : List (List EpochData)) : CVResult :=
  let outcomes := fold_epochs.map (train_fold patience min_delta)
  let accs := outcomes.map foldBestAcc
  let fold_results := outcomes.enum.map
    (fun p => FoldResult.mk (p.1 + 1) (foldBestAcc p.2) p.2.history.length)
  let sel := select_best_fold accs
  ⟨fold_results, sel.best_fold, sel.best_fold_acc, sel.best_model_state⟩

/-- Models the external `torch.nn.Module.load_state_dict` call made by `main`
(line 771) on the state returned by `run_cross_validation`: the external
library raises when handed `None` instead of a state dict, and loads the
state otherwise. -/
def load_state_dict (state : Option Nat) : Except String Nat :=
  match state with
  | none => .error "load_state_dict: state dict is None"
  | some s => .ok s

/-- The confidence-threshold decision rule, as applied identically in
`evaluate` (lines 341-349 of `train_intent_classifier.py`) and
`evaluate_dataset` / `evaluate_combined` (lines 129-137 and 233-238 of
`evaluate_combined.py`): `if conf < threshold: unclear else pred`. -/
def adjust_prediction (pred : Nat) (conf : ℚ) (threshold : ℚ) : Nat :=
  if conf < threshold then unclearId else pred

/-- Number of examples of a dataset (given as `(predicted label, confidence)`
pairs) whose final label after the decision rule is the unclear label. -/
def count_unclear (data : List (Nat × ℚ)) (threshold : ℚ) : Nat :=
  data.countP (fun pc => adjust_prediction pc.1 pc.2 threshold == unclearId)

/-- Number of positions where prediction equals true label. -/
def matches_count (labels preds : List Nat) : Nat :=
  (labels.zip preds).countP (fun p => p.1 == p.2)

/-- `sklearn.metrics.accuracy_score` on integer labels, as used throughout
both scripts: the fraction of samples where the prediction equals the label. -/
def accuracy_score (labels preds : List Nat) : ℚ :=
  (matches_count labels preds : ℚ) / (labels.length : ℚ)

/-- The pooled accuracy of `evaluate_combined` (lines 209-241 of
`evaluate_combined.py`): all per-dataset labels and predictions are
concatenated with `extend` and `accuracy_score` is recomputed over the
union.  Each dataset is given as its `(labels, predictions)` pair. -/
def combined_raw_accuracy (datasets : List (List Nat × List Nat)) : ℚ :=
  accuracy_score (datasets.map Prod.fst).flatten (datasets.map Prod.snd).flatten

/-- Number of examples of a given label in a corpus of label ids. -/
def count_label (l : Nat) (labels : List Nat) : Nat :=
  labels.count l

/-- The confidence extraction of `predict_with_confidence` (lines 218-224):
`confidence, predictions = torch.max(probs, dim=-1)` — the maximum of the
softmax distribution over the `NUM_LABELS = 6` classes. -/
def max_prob (probs : Fin 6 → ℚ) : ℚ :=
  max (probs 0) (max (probs 1) (max (probs 2) (max (probs 3) (max (probs 4) (probs 5)))))

/-! ## Helper lemmas about the early-stopping step -/

lemma call_min_delta (es : EarlyStopping) (s : ℚ) :
    (es.call s).min_delta = es.min_delta := by
  cases h : es.best_score <;> simp only [EarlyStopping.call, h] <;> try rfl
  split <;> rfl

lemma call_none (es : EarlyStopping) (s : ℚ) (h : es.best_score = none) :
    es.call s = { es with best_score := some s, best_model_state := some s } := by
  simp [EarlyStopping.call, h]

lemma call_stale (es : EarlyStopping) (s b : ℚ) (h : es.best_score = some b)
    (hlt : s < b + es.min_delta) :
    es.call s = { es with
      counter := es.counter + 1,
      early_stop := if es.patience ≤ es.counter + 1 then true else es.early_stop } := by
  simp [EarlyStopping.call, h, hlt]

lemma call_improve (es : EarlyStopping) (s b : ℚ) (h : es.best_score = some b)
    (hge : b + es.min_delta ≤ s) :
    es.call s = { es with
      best_score := some s, best_model_state := some s, counter := 0 } := by
  simp [EarlyStopping.call, h, not_lt.mpr hge]

/-! ## C2: the early-stopping policy -/

/-- C2: the early-stopping policy behaves as specified: if `best_score` is
unset, or the new score `s` satisfies `s ≥ best_score + min_delta`, it sets
`best_score = s`, snapshots the current model as best and resets the stale
counter to 0; otherwise it increments the stale counter and raises the stop
flag (terminating the epoch loop immediately) once the counter reaches
`patience`.  In particular, on the score sequence `[0.5, 0.5, 0.5, 0.5]`
with `patience = 2` and `min_delta = 0.001`, exactly 3 epochs run and epoch
4 is never reached. -/
theorem early_stopping_policy_spec :
    (∀ (es : EarlyStopping) (s : ℚ),
      (es.best_score = none → es.counter = 0 →
        es.call s = { es with
          best_score := some s, best_model_state := some s, counter := 0 }) ∧
      (∀ b, es.best_score = some b → b + es.min_delta ≤ s →
        es.call s = { es with
          best_score := some s, best_model_state := some s, counter := 0 }) ∧
      (∀ b, es.best_score = some b → s < b + es.min_delta →
        es.call s = { es with
          counter := es.counter + 1,
          early_stop := if es.patience ≤ es.counter + 1 then true else es.early_stop })) ∧
    (train_fold 2 (1/1000) (List.replicate 4 ⟨[FVal.finite 1], 1/2⟩)).epochs_trained = 3 := by
  refine ⟨fun es s => ⟨fun hnone hc => ?_, fun b hb hge => call_improve es s b hb hge,
      fun b hb hlt => call_stale es s b hb hlt⟩, ?_⟩
  · rw [call_none es s hnone, ← hc]
  · norm_num [train_fold, foldEpochs, EarlyStopping.call, EarlyStopping.init, train_epoch,
      FoldOutcome.epochs_trained, List.replicate]

/-- Witness for C2: the first call records the score as best, and the
synthetic sequence from the spec stops after 3 epochs. -/
theorem early_stopping_policy_spec_witness :
    EarlyStopping.call (EarlyStopping.init 2 (1/1000)) (1/2) =
      { EarlyStopping.init 2 (1/1000) with
        best_score := some (1/2), best_model_state := some (1/2), counter := 0 } ∧
    (train_fold 2 (1/1000) (List.replicate 4 ⟨[FVal.finite 1], 1/2⟩)).epochs_trained = 3 :=
  ⟨(early_stopping_policy_spec.1 (EarlyStopping.init 2 (1/1000)) (1/2)).1 rfl rfl,
    early_stopping_policy_spec.2⟩

/-! ## C3: the confidence-threshold decision policy -/

/-- C3: the decision policy is a pure function of `(prediction, threshold)`:
below-threshold confidence yields the unclear label, otherwise the raw
prediction is kept; threshold 0 is a pass-through for every prediction
(confidences are nonnegative), and threshold 1 forces the unclear label
unless the confidence is exactly 1. -/
theorem decision_policy_spec (pred : Nat) (conf threshold : ℚ)
    (h0 : 0 ≤ conf) (h1 : conf ≤ 1) :
    (conf < threshold → adjust_prediction pred conf threshold = unclearId) ∧
    (threshold ≤ conf → adjust_prediction pred conf threshold = pred) ∧
    adjust_prediction pred conf 0 = pred ∧
    (conf ≠ 1 → adjust_prediction pred conf 1 = unclearId) ∧
    (conf = 1 → adjust_prediction pred conf 1 = pred) := by
  refine ⟨fun hlt => ?_, fun hge => ?_, ?_, fun hne => ?_, fun heq => ?_⟩
  · exact if_pos hlt
  · exact if_neg (not_lt.mpr hge)
  · exact if_neg (not_lt.mpr h0)
  · exact if_pos (lt_of_le_of_ne h1 hne)
  · exact if_neg (not_lt.mpr (le_of_eq heq.symm))

/-- Witness for C3 at confidence 0: threshold 0 passes the prediction
through, threshold 1 overrides it to the unclear label. -/
theorem decision_policy_spec_witness :
    adjust_prediction 2 0 0 = 2 ∧ adjust_prediction 2 0 1 = unclearId :=
  ⟨(decision_policy_spec 2 0 0 (le_refl 0) zero_le_one).2.2.1,
    (decision_policy_spec 2 0 1 (le_refl 0) zero_le_one).2.2.2.1 zero_ne_one⟩

/-! ## C1: the best-checkpoint property of the fold trainer -/

lemma foldEpochs_best_inv (epochs : List EpochData) :
    ∀ (es : EarlyStopping) (b : ℚ), 0 ≤ es.min_delta → es.best_score = some b →
      es.best_model_state = some b →
      ∃ b', (foldEpochs es epochs).1.best_score = some b' ∧
        (foldEpochs es epochs).1.best_model_state = some b' ∧
        b ≤ b' ∧
        (b' = b ∨ b' ∈ (foldEpochs es epochs).2.map Prod.snd) ∧
        ∀ s ∈ (foldEpochs es epochs).2.map Prod.snd, s ≤ b' + es.min_delta := by
  induction epochs with
  | nil =>
    intro es b hδ hb hbm
    exact ⟨b, by simp [foldEpochs, hb], by simp [foldEpochs, hbm], le_refl b,
      Or.inl rfl, by simp [foldEpochs]⟩
  | cons e rest ih =>
    intro es b hδ hb hbm
    by_cases hlt : e.val_accuracy < b + es.min_delta
    · have hcall := call_stale es e.val_accuracy b hb hlt
      have h2b : (es.call e.val_accuracy).best_score = some b := by
        rw [hcall]; exact hb
      have h2bm : (es.call e.val_accuracy).best_model_state = some b := by
        rw [hcall]; exact hbm
      have h2δ : (es.call e.val_accuracy).min_delta = es.min_delta := call_min_delta es _
      cases hstop : (es.call e.val_accuracy).early_stop
      · obtain ⟨b', hb', hbm', hle, hmem, hall⟩ :=
          ih (es.call e.val_accuracy) b (h2δ ▸ hδ) h2b h2bm
        rw [h2δ] at hall
        refine ⟨b', ?_, ?_, hle, ?_, ?_⟩
        · simpa [foldEpochs, hstop] using hb'
        · simpa [foldEpochs, hstop] using hbm'
        · rcases hmem with h | h
          · exact Or.inl h
          · refine Or.inr ?_
            simp only [foldEpochs, hstop, Bool.false_eq_true, if_false, List.map_cons,
              List.mem_cons]
            exact Or.inr h
        · intro s hs
          simp only [foldEpochs, hstop, Bool.false_eq_true, if_false, List.map_cons,
            List.mem_cons] at hs
          rcases hs with h | hs
          · subst h; linarith
          · exact hall s hs
      · refine ⟨b, ?_, ?_, le_refl b, Or.inl rfl, ?_⟩
        · simpa [foldEpochs, hstop] using h2b
        · simpa [foldEpochs, hstop] using h2bm
        · intro s hs
          simp only [foldEpochs, hstop, if_true, List.map_cons, List.map_nil,
            List.mem_cons, List.not_mem_nil, or_false] at hs
          subst hs
          exact le_of_lt hlt
    · push_neg at hlt
      have hcall := call_improve es e.val_accuracy b hb hlt
      have h2b : (es.call e.val_accuracy).best_score = some e.val_accuracy := by
        rw [hcall]
      have h2bm : (es.call e.val_accuracy).best_model_state = some e.val_accuracy := by
        rw [hcall]
      have h2δ : (es.call e.val_accuracy).min_delta = es.min_delta := call_min_delta es _
      have hbv : b ≤ e.val_accuracy := by linarith
      cases hstop : (es.call e.val_accuracy).early_stop
      · obtain ⟨b', hb', hbm', hle, hmem, hall⟩ :=
          ih (es.call e.val_accuracy) e.val_accuracy (h2δ ▸ hδ) h2b h2bm
        rw [h2δ] at hall
        refine ⟨b', ?_, ?_, le_trans hbv hle, Or.inr ?_, ?_⟩
        · simpa [foldEpochs, hstop] using hb'
        · simpa [foldEpochs, hstop] using hbm'
        · simp only [foldEpochs, hstop, Bool.false_eq_true, if_false, List.map_cons,
            List.mem_cons]
          rcases hmem with h | h
          · exact Or.inl h
          · exact Or.inr h
        · intro s hs
          simp only [foldEpochs, hstop, Bool.false_eq_true, if_false, List.map_cons,
            List.mem_cons] at hs
          rcases hs with h | hs
          · subst h; linarith
          · exact hall s hs
      · refine ⟨e.val_accuracy, ?_, ?_, hbv, Or.inr ?_, ?_⟩
        · simpa [foldEpochs, hstop] using h2b
        · simpa [foldEpochs, hstop] using h2bm
        · simp [foldEpochs, hstop]
        · intro s hs
          simp only [foldEpochs, hstop, if_true, List.map_cons, List.map_nil,
            List.mem_cons, List.not_mem_nil, or_false] at hs
          subst hs
          linarith

/-- C1 (amended): the fold trainer returns the model snapshotted by the
early stopper; its validation accuracy equals the returned `best_score`, is
one of the accuracies of the epochs actually run, and every epoch actually
run has accuracy at most `best_score + min_delta` — i.e. the returned
checkpoint is within `min_delta` of the best epoch, but (per the
counterexample) not always equal to it. -/
theorem trainer_returns_best_within_min_delta (patience : Nat) (min_delta : ℚ)
    (epochs : List EpochData) (hδ : 0 ≤ min_delta) (hne : epochs ≠ []) :
    ∃ b, (train_fold patience min_delta epochs).best_score = some b ∧
      (train_fold patience min_delta epochs).best_model_state = some b ∧
      b ∈ (train_fold patience min_delta epochs).history.map Prod.snd ∧
      ∀ s ∈ (train_fold patience min_delta epochs).history.map Prod.snd,
        s ≤ b + min_delta := by
  obtain ⟨e, rest, rfl⟩ := List.exists_cons_of_ne_nil hne
  have hcall := call_none (EarlyStopping.init patience min_delta) e.val_accuracy rfl
  have h2b : ((EarlyStopping.init patience min_delta).call e.val_accuracy).best_score
      = some e.val_accuracy := by rw [hcall]
  have h2bm :
      ((EarlyStopping.init patience min_delta).call e.val_accuracy).best_model_state
      = some e.val_accuracy := by rw [hcall]
  have h2δ : ((EarlyStopping.init patience min_delta).call e.val_accuracy).min_delta
      = min_delta := by rw [hcall]; rfl
  have hstop : ((EarlyStopping.init patience min_delta).call e.val_accuracy).early_stop
      = false := by rw [hcall]; rfl
  obtain ⟨b', hb', hbm', hle, hmem, hall⟩ :=
    foldEpochs_best_inv rest ((EarlyStopping.init patience min_delta).call e.val_accuracy)
      e.val_accuracy (h2δ ▸ hδ) h2b h2bm
  rw [h2δ] at hall
  refine ⟨b', ?_, ?_, ?_, ?_⟩
  · simpa [train_fold, foldEpochs, hstop] using hb'
  · simpa [train_fold, foldEpochs, hstop] using hbm'
  · simp only [train_fold, foldEpochs, hstop, Bool.false_eq_true, if_false,
      List.map_cons, List.mem_cons]
    rcases hmem with h | h
    · exact Or.inl h
    · exact Or.inr h
  · intro s hs
    simp only [train_fold, foldEpochs, hstop, Bool.false_eq_true, if_false,
      List.map_cons, List.mem_cons] at hs
    rcases hs with h | hs
    · subst h; linarith
    · exact hall s hs

/-- Witness for C1's amended theorem: a one-epoch fold returns that epoch's
accuracy as its best checkpoint. -/
theorem trainer_returns_best_within_min_delta_witness :
    ∃ b, (train_fold 3 0 [⟨[FVal.finite 2], 3/4⟩]).best_score = some b ∧
      (train_fold 3 0 [⟨[FVal.finite 2], 3/4⟩]).best_model_state = some b ∧
      b ∈ (train_fold 3 0 [⟨[FVal.finite 2], 3/4⟩]).history.map Prod.snd ∧
      ∀ s ∈ (train_fold 3 0 [⟨[FVal.finite 2], 3/4⟩]).history.map Prod.snd, s ≤ b + 0 :=
  trainer_returns_best_within_min_delta 3 0 [⟨[FVal.finite 2], 3/4⟩] (le_refl 0)
    (by simp)

/-- C1 counterexample: with the source defaults `patience = 3`,
`min_delta = 0.001`, the validation-accuracy sequence `[0.5, 0.5005]` runs
both epochs, but the second epoch improves by less than `min_delta`, so the
early stopper never snapshots it: the returned checkpoint has accuracy 0.5
while the maximum over the epochs actually run is 0.5005 — the returned
model is strictly worse than the best epoch. -/
theorem trainer_best_not_max_counterexample :
    (train_fold 3 (1/1000)
      [⟨[FVal.finite 1], 1/2⟩, ⟨[FVal.finite 1], 1001/2000⟩]).epochs_trained = 2 ∧
    (train_fold 3 (1/1000)
      [⟨[FVal.finite 1], 1/2⟩, ⟨[FVal.finite 1], 1001/2000⟩]).best_score = some (1/2) ∧
    (train_fold 3 (1/1000)
      [⟨[FVal.finite 1], 1/2⟩, ⟨[FVal.finite 1], 1001/2000⟩]).best_model_state
      = some (1/2) ∧
    ((train_fold 3 (1/1000)
      [⟨[FVal.finite 1], 1/2⟩, ⟨[FVal.finite 1], 1001/2000⟩]).history.map
        Prod.snd).foldr max 0 = 1001/2000 ∧
    (1:ℚ)/2 < 1001/2000 := by
  refine ⟨?_, ?_, ?_, ?_, by norm_num⟩ <;>
    norm_num [train_fold, foldEpochs, EarlyStopping.call, EarlyStopping.init, train_epoch,
      FoldOutcome.epochs_trained]

/-! ## C4 and C9: winner selection across folds -/

lemma selectBestAux_spec :
    ∀ (rest : List ℚ) (k : Nat) (bf : Int) (ba : ℚ) (bs : Option Nat),
      (selectBestAux rest k bf ba bs = ⟨bf, ba, bs⟩ ∧ ∀ a ∈ rest, a ≤ ba) ∨
      (∃ (i : Nat) (hi : i < rest.length),
        selectBestAux rest k bf ba bs =
          ⟨((k + i : Nat) : Int), rest.get ⟨i, hi⟩, some (k + i)⟩ ∧
        ba < rest.get ⟨i, hi⟩ ∧
        (∀ a ∈ rest, a ≤ rest.get ⟨i, hi⟩) ∧
        (∀ i' (hi' : i' < rest.length), i' < i →
          rest.get ⟨i', hi'⟩ < rest.get ⟨i, hi⟩)) := by
  intro rest
  induction rest with
  | nil => intro k bf ba bs; exact Or.inl ⟨rfl, by simp⟩
  | cons a t ih =>
    intro k bf ba bs
    by_cases hba : ba < a
    · rcases ih (k + 1) (k : Int) a (some k) with ⟨heq, hle⟩ | ⟨i0, hi0, heq, hlt, hle, hfirst⟩
      · refine Or.inr ⟨0, by simp, ?_, ?_, ?_, ?_⟩
        · simp [selectBestAux, hba, heq]
        · simpa using hba
        · intro x hx
          rcases List.mem_cons.mp hx with rfl | hx
          · simp
          · simpa using hle x hx
        · intro i' hi' hlt'
          exact absurd hlt' (Nat.not_lt_zero i')
      · refine Or.inr ⟨i0 + 1, Nat.succ_lt_succ hi0, ?_, ?_, ?_, ?_⟩
        · simp only [selectBestAux, if_pos hba, heq, List.get_cons_succ]
          congr 2 <;> omega
        · simpa [List.get_cons_succ] using lt_trans hba hlt
        · intro x hx
          rcases List.mem_cons.mp hx with rfl | hx
          · simpa [List.get_cons_succ] using le_of_lt hlt
          · simpa [List.get_cons_succ] using hle x hx
        · intro i' hi' hlt'
          cases i' with
          | zero => simpa [List.get_cons_zero, List.get_cons_succ] using hlt
          | succ j =>
            have hj : j < t.length := Nat.lt_of_succ_lt_succ hi'
            simpa [List.get_cons_succ] using
              hfirst j hj (Nat.lt_of_succ_lt_succ hlt')
    · have han : a ≤ ba := not_lt.mp hba
      rcases ih (k + 1) bf ba bs with ⟨heq, hle⟩ | ⟨i0, hi0, heq, hlt, hle, hfirst⟩
      · refine Or.inl ⟨?_, ?_⟩
        · simp only [selectBestAux, if_neg hba, heq]
        · intro x hx
          rcases List.mem_cons.mp hx with rfl | hx
          · exact han
          · exact hle x hx
      · refine Or.inr ⟨i0 + 1, Nat.succ_lt_succ hi0, ?_, ?_, ?_, ?_⟩
        · simp only [selectBestAux, if_neg hba, heq, List.get_cons_succ]
          congr 2 <;> omega
        · simpa [List.get_cons_succ] using hlt
        · intro x hx
          rcases List.mem_cons.mp hx with rfl | hx
          · simpa [List.get_cons_succ] using le_of_lt (lt_of_le_of_lt han hlt)
          · simpa [List.get_cons_succ] using hle x hx
        · intro i' hi' hlt'
          cases i' with
          | zero => simpa [List.get_cons_zero, List.get_cons_succ] using lt_of_le_of_lt han hlt
          | succ j =>
            have hj : j < t.length := Nat.lt_of_succ_lt_succ hi'
            simpa [List.get_cons_succ] using
              hfirst j hj (Nat.lt_of_succ_lt_succ hlt')

/-- C4 counterexample: on the fold-accuracy list `[0, 0]` (every fold gets
everything wrong) the source's selection loop, initialized with
`best_fold = -1` and `best_fold_acc = 0` and updating only on a strict
improvement, selects no fold at all: `best_fold` stays `-1` and no natural
fold index is returned, whereas the spec's rule (ties broken by lowest
`fold_id`) selects fold 0. -/
theorem fold_selection_counterexample :
    select_best_fold [(0:ℚ), 0] = ⟨-1, 0, none⟩ ∧
    spec_select_fold [(0:ℚ), 0] = some 0 ∧
    ∀ j : Nat, (select_best_fold [(0:ℚ), 0]).best_fold ≠ (j : Int) := by
  refine ⟨by decide, by decide, ?_⟩
  intro j
  have h : select_best_fold [(0:ℚ), 0] = ⟨-1, 0, none⟩ := by decide
  rw [h]
  intro hj
  have h2 : (-1 : Int) = (j : Int) := hj
  omega

/-- C4 (amended): when at least one fold has best validation accuracy
strictly above 0, the selection loop returns the first fold attaining the
maximum accuracy: its accuracy is greater than or equal to every fold's
accuracy, every earlier fold is strictly worse (the first encountered
maximum wins, deterministically), and the winner's model state is returned.
The counterexample shows the all-zero case must be excluded: there the loop
selects no fold. -/
theorem fold_selection_first_argmax (accs : List ℚ) (hpos : ∃ a ∈ accs, 0 < a) :
    ∃ (j : Nat) (hj : j < accs.length),
      (select_best_fold accs).best_fold = (j : Int) ∧
      (select_best_fold accs).best_model_state = some j ∧
      (select_best_fold accs).best_fold_acc = accs.get ⟨j, hj⟩ ∧
      (∀ i (hi : i < accs.length), accs.get ⟨i, hi⟩ ≤ accs.get ⟨j, hj⟩) ∧
      (∀ i (hi : i < accs.length), i < j → accs.get ⟨i, hi⟩ < accs.get ⟨j, hj⟩) := by
  rcases selectBestAux_spec accs 0 (-1) 0 none with ⟨heq, hle⟩ |
    ⟨i, hi, heq, hlt, hle, hfirst⟩
  · obtain ⟨a, ha, hapos⟩ := hpos
    exact absurd (hle a ha) (not_le.mpr hapos)
  · refine ⟨i, hi, ?_, ?_, ?_, ?_, hfirst⟩
    · show (selectBestAux accs 0 (-1) 0 none).best_fold = (i : Int)
      rw [heq]; simp
    · show (selectBestAux accs 0 (-1) 0 none).best_model_state = some i
      rw [heq]; simp
    · show (selectBestAux accs 0 (-1) 0 none).best_fold_acc = accs.get ⟨i, hi⟩
      rw [heq]
    · intro i' hi'
      exact hle _ (accs.get_mem i' hi')

/-- Witness for C4's amended theorem on the accuracy list `[1, 1]`. -/
theorem fold_selection_first_argmax_witness :
    ∃ (j : Nat) (hj : j < ([(1:ℚ), 1]).length),
      (select_best_fold [(1:ℚ), 1]).best_fold = (j : Int) ∧
      (select_best_fold [(1:ℚ), 1]).best_model_state = some j ∧
      (select_best_fold [(1:ℚ), 1]).best_fold_acc = ([(1:ℚ), 1]).get ⟨j, hj⟩ ∧
      (∀ i (hi : i < ([(1:ℚ), 1]).length),
        ([(1:ℚ), 1]).get ⟨i, hi⟩ ≤ ([(1:ℚ), 1]).get ⟨j, hj⟩) ∧
      (∀ i (hi : i < ([(1:ℚ), 1]).length), i < j →
        ([(1:ℚ), 1]).get ⟨i, hi⟩ < ([(1:ℚ), 1]).get ⟨j, hj⟩) :=
  fold_selection_first_argmax [1, 1] ⟨1, by simp, zero_lt_one⟩

/-- C9: if no fold reports a best validation accuracy strictly greater than
0, `run_cross_validation` returns `best_fold = -1` and
`best_model_state = None`, and the caller's subsequent load of the best
model state fails; conversely a model artifact is returned exactly when at
least one fold's best accuracy exceeds 0. -/
theorem no_positive_fold_no_winner (labels : List Nat) (patience : Nat) (min_delta : ℚ)
    (fold_epochs : List (List EpochData)) :
    ((∀ a ∈ (fold_epochs.map (train_fold patience min_delta)).map foldBestAcc, a ≤ 0) →
      (run_cross_validation labels patience min_delta fold_epochs).best_fold = -1 ∧
      (run_cross_validation labels patience min_delta fold_epochs).best_model_state
        = none ∧
      load_state_dict
        (run_cross_validation labels patience min_delta fold_epochs).best_model_state
        = Except.error "load_state_dict: state dict is None") ∧
    ((run_cross_validation labels patience min_delta fold_epochs).best_model_state.isSome
      ↔ ∃ a ∈ (fold_epochs.map (train_fold patience min_delta)).map foldBestAcc, 0 < a) := by
  have hbf : (run_cross_validation labels patience min_delta fold_epochs).best_fold =
      (selectBestAux ((fold_epochs.map (train_fold patience min_delta)).map foldBestAcc)
        0 (-1) 0 none).best_fold := rfl
  have hbm : (run_cross_validation labels patience min_delta fold_epochs).best_model_state =
      (selectBestAux ((fold_epochs.map (train_fold patience min_delta)).map foldBestAcc)
        0 (-1) 0 none).best_model_state := rfl
  rcases selectBestAux_spec ((fold_epochs.map (train_fold patience min_delta)).map foldBestAcc)
      0 (-1) 0 none with ⟨heq, hle⟩ | ⟨i, hi, heq, hlt, hle, hfirst⟩
  · refine ⟨fun _ => ⟨?_, ?_, ?_⟩, ?_⟩
    · rw [hbf, heq]
    · rw [hbm, heq]
    · rw [hbm, heq]; rfl
    · rw [hbm, heq]
      simp only [Option.isSome_none, Bool.false_eq_true, false_iff]
      rintro ⟨a, ha, hapos⟩
      exact absurd (hle a ha) (not_le.mpr hapos)
  · refine ⟨fun hz => ?_, ?_⟩
    · exfalso
      exact absurd (hz _ (List.get_mem _ i hi)) (not_le.mpr hlt)
    · rw [hbm, heq]
      simp only [Option.isSome_some, true_iff]
      exact ⟨_, List.get_mem _ i hi, hlt⟩

/-- Witness for C9: a single fold whose only epoch has validation accuracy
0 yields no winner and a failing model load. -/
theorem no_positive_fold_no_winner_witness :
    (run_cross_validation [] 1 0 [[⟨[], 0⟩]]).best_fold = -1 ∧
    (run_cross_validation [] 1 0 [[⟨[], 0⟩]]).best_model_state = none ∧
    load_state_dict (run_cross_validation [] 1 0 [[⟨[], 0⟩]]).best_model_state
      = Except.error "load_state_dict: state dict is None" :=
  (no_positive_fold_no_winner [] 1 0 [[⟨[], 0⟩]]).1 (by decide)

/-! ## C5: pooled accuracy over multiple datasets -/

/-- C5: pooled accuracy is computed by concatenating all per-dataset labels
and predictions and recomputing accuracy over the union, which for two
datasets equals total correct over total size; on the spec's example
(dataset A: 10 examples, 8 correct; dataset B: 5 examples, 5 correct) it
yields 13/15, which differs from the mean 9/10 of the per-dataset
accuracies. -/
theorem pooled_accuracy_spec :
    (∀ (lA pA lB pB : List Nat), lA.length = pA.length →
      combined_raw_accuracy [(lA, pA), (lB, pB)] =
        ((matches_count lA pA + matches_count lB pB : Nat) : ℚ)
          / ((lA.length + lB.length : Nat) : ℚ)) ∧
    combined_raw_accuracy
      [([0,0,0,0,0,0,0,0,0,0], [0,0,0,0,0,0,0,0,1,1]), ([2,2,2,2,2], [2,2,2,2,2])]
      = 13/15 ∧
    (accuracy_score [0,0,0,0,0,0,0,0,0,0] [0,0,0,0,0,0,0,0,1,1]
      + accuracy_score [2,2,2,2,2] [2,2,2,2,2]) / 2 = 9/10 ∧
    (13:ℚ)/15 ≠ 9/10 := by
  refine ⟨?_, ?_, ?_, by norm_num⟩
  · intro lA pA lB pB hlen
    simp only [combined_raw_accuracy, accuracy_score, matches_count, List.map_cons,
      List.map_nil, List.flatten_cons, List.flatten_nil, List.append_nil]
    rw [List.zip_append hlen, List.countP_append, List.length_append]
  · have h : matches_count [0,0,0,0,0,0,0,0,0,0,2,2,2,2,2]
        [0,0,0,0,0,0,0,0,1,1,2,2,2,2,2] = 13 := by decide
    norm_num [combined_raw_accuracy, accuracy_score, h]
  · have h1 : matches_count [0,0,0,0,0,0,0,0,0,0] [0,0,0,0,0,0,0,0,1,1] = 8 := by decide
    have h2 : matches_count [2,2,2,2,2] [2,2,2,2,2] = 5 := by decide
    norm_num [accuracy_score, h1, h2]

/-- Witness for C5's general clause on a pair of one-element datasets. -/
theorem pooled_accuracy_spec_witness :
    combined_raw_accuracy [([0], [0]), ([1], [2])] =
      ((matches_count [0] [0] + matches_count [1] [2] : Nat) : ℚ)
        / ((([0] : List Nat).length + ([1] : List Nat).length : Nat) : ℚ) :=
  pooled_accuracy_spec.1 [0] [0] [1] [2] rfl

/-! ## C6: no label-count validation in the orchestrator -/

/-- C6 counterexample: a corpus in which label 0 has a single example
(fewer than the `k = 5` requested folds) does not make the orchestrator
fail: `run_cross_validation` has no error path, produces a `FoldResult` for
all 5 folds, and training runs (at least one epoch is trained in every
fold) — no `InsufficientDataError` is surfaced before (or after) training. -/
theorem insufficient_data_unchecked_counterexample :
    count_label 0 [0, 1, 1, 1, 1, 1, 2, 2, 2, 2, 2] = 1 ∧ 1 < 5 ∧
    (run_cross_validation [0, 1, 1, 1, 1, 1, 2, 2, 2, 2, 2] 3 (1/1000)
      (List.replicate 5 [⟨[FVal.finite 1], 4/5⟩])).fold_results.length = 5 ∧
    ∀ r ∈ (run_cross_validation [0, 1, 1, 1, 1, 1, 2, 2, 2, 2, 2] 3 (1/1000)
      (List.replicate 5 [⟨[FVal.finite 1], 4/5⟩])).fold_results, r.epochs_trained = 1 :=
  ⟨by decide, by decide, by decide, by decide⟩

/-- C6 (amended): the orchestrator performs no validation of per-label
example counts: its result does not depend on the corpus labels at all (they
are consumed only by the external stratified splitter), and it
unconditionally produces one `FoldResult` per fold. -/
theorem cross_validation_ignores_labels (labels labels' : List Nat) (patience : Nat)
    (min_delta : ℚ) (fold_epochs : List (List EpochData)) :
    run_cross_validation labels patience min_delta fold_epochs =
      run_cross_validation labels' patience min_delta fold_epochs ∧
    (run_cross_validation labels patience min_delta fold_epochs).fold_results.length =
      fold_epochs.length := by
  refine ⟨rfl, ?_⟩
  simp [run_cross_validation]

/-! ## C7: non-finite losses are not fatal -/

lemma foldEpochs_val_congr :
    ∀ (e1 e2 : List EpochData) (es : EarlyStopping),
      e1.map EpochData.val_accuracy = e2.map EpochData.val_accuracy →
      (foldEpochs es e1).1 = (foldEpochs es e2).1 ∧
      (foldEpochs es e1).2.length = (foldEpochs es e2).2.length := by
  intro e1
  induction e1 with
  | nil =>
    intro e2 es h
    have h2 : e2 = [] := by
      cases e2 with
      | nil => rfl
      | cons b t2 => simp at h
    subst h2
    exact ⟨rfl, rfl⟩
  | cons a t ih =>
    intro e2 es h
    cases e2 with
    | nil => simp at h
    | cons b t2 =>
      simp only [List.map_cons, List.cons.injEq] at h
      obtain ⟨hv, ht⟩ := h
      have hc : es.call a.val_accuracy = es.call b.val_accuracy := by rw [hv]
      cases hstop : (es.call a.val_accuracy).early_stop
      · have hstop2 : (es.call b.val_accuracy).early_stop = false := by
          rw [← hc]; exact hstop
        obtain ⟨h1, h2⟩ := ih t2 (es.call a.val_accuracy) ht
        constructor
        · simp only [foldEpochs, hstop, hstop2, Bool.false_eq_true, if_false]
          rw [← hc]
          exact h1
        · simp only [foldEpochs, hstop, hstop2, Bool.false_eq_true, if_false,
            List.length_cons]
          rw [← hc]
          exact congrArg Nat.succ h2
      · have hstop2 : (es.call b.val_accuracy).early_stop = true := by
          rw [← hc]; exact hstop
        constructor
        · simp only [foldEpochs, hstop, hstop2, if_true]
          exact hc
        · simp only [foldEpochs, hstop, hstop2, if_true, List.length_cons]

/-- C7 (amended): the fold trainer performs no finiteness check: its control
flow (number of epochs run, returned best score) depends only on the
validation-accuracy sequence and is entirely independent of the batch
losses — in particular a non-finite loss neither aborts the fold (there is
no `DivergedTrainingError` anywhere in the repository) nor is skipped: per
the counterexample it is averaged into the recorded history and training
continues. -/
theorem nonfinite_loss_not_fatal (patience : Nat) (min_delta : ℚ)
    (e1 e2 : List EpochData)
    (h : e1.map EpochData.val_accuracy = e2.map EpochData.val_accuracy) :
    (train_fold patience min_delta e1).epochs_trained =
      (train_fold patience min_delta e2).epochs_trained ∧
    (train_fold patience min_delta e1).best_score =
      (train_fold patience min_delta e2).best_score := by
  obtain ⟨h1, h2⟩ := foldEpochs_val_congr e1 e2 (EarlyStopping.init patience min_delta) h
  exact ⟨h2, congrArg EarlyStopping.best_score h1⟩

/-- Witness for C7's amended theorem: one fold with a non-finite batch loss
behaves exactly like the same fold with a finite loss. -/
theorem nonfinite_loss_not_fatal_witness :
    (train_fold 1 0 [⟨[FVal.nonfinite], 1/2⟩]).epochs_trained =
      (train_fold 1 0 [⟨[FVal.finite 1], 1/2⟩]).epochs_trained ∧
    (train_fold 1 0 [⟨[FVal.nonfinite], 1/2⟩]).best_score =
      (train_fold 1 0 [⟨[FVal.finite 1], 1/2⟩]).best_score :=
  nonfinite_loss_not_fatal 1 0 [⟨[FVal.nonfinite], 1/2⟩] [⟨[FVal.finite 1], 1/2⟩] rfl

/-- C7 counterexample: a fold whose first epoch has a non-finite batch loss
completes normally: both epochs run, the non-finite average loss is recorded
in the history (not skipped), the best score is still produced, and no
failure of any kind occurs (the trainer has no error output at all). -/
theorem nonfinite_loss_continues_counterexample :
    (train_fold 3 (1/1000)
      [⟨[FVal.nonfinite], 1/2⟩, ⟨[FVal.finite 1], 3/5⟩]).epochs_trained = 2 ∧
    (train_fold 3 (1/1000)
      [⟨[FVal.nonfinite], 1/2⟩, ⟨[FVal.finite 1], 3/5⟩]).history.map Prod.fst
      = [FVal.nonfinite, FVal.finite 1] ∧
    (train_fold 3 (1/1000)
      [⟨[FVal.nonfinite], 1/2⟩, ⟨[FVal.finite 1], 3/5⟩]).best_score = some (3/5) := by
  refine ⟨?_, ?_, ?_⟩ <;>
    norm_num [train_fold, foldEpochs, EarlyStopping.call, EarlyStopping.init, train_epoch,
      FVal.add, FVal.divNat, FoldOutcome.epochs_trained]

/-! ## C8: monotonicity of the unclear count in the threshold -/

/-- C8: for a fixed set of predictions, raising the confidence threshold can
only increase the number of examples whose final label after the decision
policy is the unclear label. -/
theorem threshold_monotone (data : List (Nat × ℚ)) (t1 t2 : ℚ) (h : t1 ≤ t2) :
    count_unclear data t1 ≤ count_unclear data t2 := by
  unfold count_unclear
  apply List.countP_mono_left
  intro pc _ hp
  simp only [beq_iff_eq] at hp ⊢
  unfold adjust_prediction at hp ⊢
  by_cases h2 : pc.2 < t2
  · rw [if_pos h2]
  · rw [if_neg h2]
    have h1 : ¬ pc.2 < t1 := fun hlt => h2 (lt_of_lt_of_le hlt h)
    rwa [if_neg h1] at hp

/-- Witness for C8 on a two-example dataset with thresholds 0 and 1. -/
theorem threshold_monotone_witness :
    (0:ℚ) ≤ 1 ∧
    count_unclear [(0, 1/2), (5, 9/10)] 0 ≤ count_unclear [(0, 1/2), (5, 9/10)] 1 :=
  ⟨zero_le_one, threshold_monotone [(0, 1/2), (5, 9/10)] 0 1 zero_le_one⟩

/-! ## C10: confidence of a 6-class distribution is at least 1/6 -/

lemma uniform6_nonneg : ∀ i : Fin 6, 0 ≤ (fun _ : Fin 6 => (1:ℚ)/6) i :=
  fun _ => by norm_num

lemma uniform6_sum :
    (fun _ : Fin 6 => (1:ℚ)/6) 0 + (fun _ : Fin 6 => (1:ℚ)/6) 1
    + (fun _ : Fin 6 => (1:ℚ)/6) 2 + (fun _ : Fin 6 => (1:ℚ)/6) 3
    + (fun _ : Fin 6 => (1:ℚ)/6) 4 + (fun _ : Fin 6 => (1:ℚ)/6) 5 = 1 := by
  norm_num

/-- C10: the confidence produced by `predict_with_confidence` is the maximum
of a probability distribution over the 6 labels, hence at least 1/6; so for
every threshold at most 1/6 the decision policy is a pass-through: no
prediction is ever overridden to the unclear label. -/
theorem confidence_at_least_one_sixth (probs : Fin 6 → ℚ)
    (h0 : ∀ i, 0 ≤ probs i)
    (hsum : probs 0 + probs 1 + probs 2 + probs 3 + probs 4 + probs 5 = 1) :
    1/6 ≤ max_prob probs ∧
    ∀ (pred : Nat) (t : ℚ), t ≤ 1/6 →
      adjust_prediction pred (max_prob probs) t = pred := by
  have h0m : probs 0 ≤ max_prob probs := by simp [max_prob, le_max_iff]
  have h1m : probs 1 ≤ max_prob probs := by simp [max_prob, le_max_iff]
  have h2m : probs 2 ≤ max_prob probs := by simp [max_prob, le_max_iff]
  have h3m : probs 3 ≤ max_prob probs := by simp [max_prob, le_max_iff]
  have h4m : probs 4 ≤ max_prob probs := by simp [max_prob, le_max_iff]
  have h5m : probs 5 ≤ max_prob probs := by simp [max_prob, le_max_iff]
  have hmain : 1/6 ≤ max_prob probs := by linarith
  refine ⟨hmain, fun pred t ht => ?_⟩
  unfold adjust_prediction
  rw [if_neg (not_lt.mpr (le_trans ht hmain))]

/-- Witness for C10 at the uniform distribution with threshold exactly 1/6. -/
theorem confidence_at_least_one_sixth_witness :
    1/6 ≤ max_prob (fun _ : Fin 6 => (1:ℚ)/6) ∧
    adjust_prediction 3 (max_prob (fun _ : Fin 6 => (1:ℚ)/6)) (1/6) = 3 :=
  ⟨(confidence_at_least_one_sixth (fun _ : Fin 6 => (1:ℚ)/6) uniform6_nonneg
      uniform6_sum).1,
    (confidence_at_least_one_sixth (fun _ : Fin 6 => (1:ℚ)/6) uniform6_nonneg
      uniform6_sum).2 3 (1/6) (le_refl (1/6))⟩

end Neurix
